import Mathlib

/-!
Shallow embedding of the note repository in `src/index.ts`
(`NotepadManager` and its persistence helpers).

Modelling conventions:

* `Entity`, `Notepad` mirror the TypeScript interfaces of the same names.
* The durable file is modelled at the line level.  The code writes
  `lines.join("\n")` and reads `data.split("\n")`; since every written line
  is a `JSON.stringify` output it contains no raw newline, so joining and
  splitting are mutually inverse and the file content is faithfully
  represented as the list of its lines (`List Line`).
* A line is `blank` (whitespace only — dropped by the
  `line.trim() !== ""` filter), `record obj` (a line that `JSON.parse`
  turns into a JSON object, modelled as its key/value list), or
  `malformed` (a non-blank line on which `JSON.parse` throws).
  JSON values occurring in the records are strings and arrays of strings
  (`JValue`), the fragment the program reads and writes.
* `JSON.parse` keeps the last occurrence of a duplicated key, so field
  lookup (`lookupField`) folds left keeping the last match.
* The file system is `Resource`: `missing` (ENOENT — the catch branch
  returns the empty notepad), `unreadable` (any other read error, which is
  rethrown), or `content lines`.
* Each `NotepadManager` method is split into its pure core on `Notepad`
  and a `run…` wrapper of type `Resource → Resource × Except String α`;
  an `.error` result leaves the resource component untouched, mirroring
  the fact that a thrown exception propagates before `fs.writeFile` is
  reached.
* `String.prototype.includes`/`toLowerCase` are modelled by `containsSub`
  on the character lists of the Lean `String.toLower` images.
-/

/-- Mirror of the `Entity` interface: `name`, `entityType`,
`observations`. -/
structure Entity where
  name : String
  entityType : String
  observations : List String
deriving DecidableEq, Repr

/-- Mirror of the `Notepad` interface: a list of entities. -/
structure Notepad where
  entities : List Entity
deriving DecidableEq, Repr

/-- JSON values appearing in the stored records: strings and arrays of
strings. -/
inductive JValue where
  | str (s : String)
  | arr (xs : List String)
deriving DecidableEq, Repr

/-- One line of the durable file, after `split("\n")`. -/
inductive Line where
  | blank
  | record (obj : List (String × JValue))
  | malformed
deriving DecidableEq, Repr

/-- The durable resource as seen through `fs.readFile`/`fs.writeFile`. -/
inductive Resource where
  | missing
  | unreadable
  | content (lines : List Line)
deriving DecidableEq, Repr

/-- Property access on a parsed JSON object; `JSON.parse` keeps the last
occurrence of a duplicated key. -/
def lookupField (k : String) (obj : List (String × JValue)) : Option JValue :=
  obj.foldl (fun acc p => if p.1 == k then some p.2 else acc) none

/-- String field of a parsed object (an absent or non-string field reads
as the neutral value; the `item as Entity` cast performs no validation). -/
def getStrField (k : String) (obj : List (String × JValue)) : String :=
  match lookupField k obj with
  | some (JValue.str s) => s
  | _ => ""

/-- Array field of a parsed object. -/
def getArrField (k : String) (obj : List (String × JValue)) : List String :=
  match lookupField k obj with
  | some (JValue.arr xs) => xs
  | _ => []

/-- The entity view of a parsed record, as produced by the
`item as Entity` cast in `loadNotepad`. -/
def parseEntity (obj : List (String × JValue)) : Entity :=
  { name := getStrField "name" obj
    entityType := getStrField "entityType" obj
    observations := getArrField "observations" obj }

/-- The record a single entity is serialized to:
`JSON.stringify({ type: "entity", ...e })`. -/
def serializeEntity (e : Entity) : List (String × JValue) :=
  [("type", JValue.str "entity"),
   ("name", JValue.str e.name),
   ("entityType", JValue.str e.entityType),
   ("observations", JValue.arr e.observations)]

/-- The line list written by `saveNotepad`: one record per entity, in
collection order. -/
def saveNotepad (notepad : Notepad) : List Line :=
  notepad.entities.map (fun e => Line.record (serializeEntity e))

/-- The `lines.reduce` loop of `loadNotepad`: blank lines are skipped,
a `JSON.parse` failure aborts the whole load, records whose `type` field
is not `"entity"` are ignored, the rest are collected in order. -/
def parseLines : List Line → Except String (List Entity)
  | [] => Except.ok []
  | Line.blank :: rest => parseLines rest
  | Line.malformed :: rest =>
      -- the thrown SyntaxError discards everything, `rest` included
      (fun _ => Except.error "Unexpected token in JSON") (parseLines rest)
  | Line.record obj :: rest =>
      if lookupField "type" obj = some (JValue.str "entity") then
        (parseLines rest).map (fun es => parseEntity obj :: es)
      else
        parseLines rest

/-- `loadNotepad`: ENOENT yields the empty notepad, any other read error
is rethrown, otherwise the lines are parsed. -/
def loadNotepad : Resource → Except String Notepad
  | Resource.missing => Except.ok { entities := [] }
  | Resource.unreadable => Except.error "EACCES"
  | Resource.content lines => (parseLines lines).map (fun es => { entities := es })

/-- Pure core of `createEntities`: keep the candidates whose name is not
already present, append them, return them. -/
def createEntities (entities : List Entity) (notepad : Notepad) :
    Notepad × List Entity :=
  let newEntities := entities.filter
    (fun e => ¬ notepad.entities.any (fun existingEntity => existingEntity.name == e.name))
  ({ entities := notepad.entities ++ newEntities }, newEntities)

/-- One request of `addObservations`. -/
structure AddRequest where
  entityName : String
  contents : List String
deriving DecidableEq, Repr

/-- One result entry of `addObservations`. -/
structure AddResult where
  entityName : String
  addedObservations : List String
deriving DecidableEq, Repr

/-- The in-place mutation `entity.observations.push(...newObservations)`
performed on the object returned by `entities.find`: the first entity
with the given name gets the new observations appended. -/
def addObsToFirst (name : String) (newObs : List String) :
    List Entity → List Entity
  | [] => []
  | e :: es =>
      if e.name == name then
        { e with observations := e.observations ++ newObs } :: es
      else
        e :: addObsToFirst name newObs es

/-- Pure core of `addObservations`: the `observations.map` loop, which
throws at the first request naming an absent entity (discarding all
in-memory mutation) and otherwise mutates the found entity in place
before moving to the next request. -/
def addObservations (requests : List AddRequest) (notepad : Notepad) :
    Except String (Notepad × List AddResult) :=
  match requests with
  | [] => Except.ok (notepad, [])
  | o :: rest =>
      match notepad.entities.find? (fun e => e.name == o.entityName) with
      | none => Except.error ("Entity with name " ++ o.entityName ++ " not found")
      | some entity =>
          let newObservations := o.contents.filter
            (fun content => ¬ entity.observations.contains content)
          let entities := addObsToFirst o.entityName newObservations notepad.entities
          (addObservations rest { entities := entities }).map
            (fun p => (p.1, { entityName := o.entityName,
                              addedObservations := newObservations } :: p.2))

/-- Pure core of `deleteEntities`: drop every entity whose name is
listed. -/
def deleteEntities (entityNames : List String) (notepad : Notepad) : Notepad :=
  { entities := notepad.entities.filter (fun e => ¬ entityNames.contains e.name) }

/-- One request of `deleteObservations`. -/
structure DeleteRequest where
  entityName : String
  observations : List String
deriving DecidableEq, Repr

/-- The in-place mutation `entity.observations = entity.observations.filter(...)`
performed on the object returned by `entities.find`: the first entity
carrying the name has the listed observations removed. -/
def delObsFromFirst (name : String) (obs : List String) :
    List Entity → List Entity
  | [] => []
  | e :: es =>
      if e.name == name then
        { e with observations := e.observations.filter (fun o => ¬ obs.contains o) } :: es
      else
        e :: delObsFromFirst name obs es

/-- One iteration of the `deletions.forEach` loop: if an entity with the
requested name exists, the first such entity (the one `find` returns)
has the listed observations removed; otherwise nothing happens. -/
def delObsStep (notepad : Notepad) (d : DeleteRequest) : Notepad :=
  match notepad.entities.find? (fun e => e.name == d.entityName) with
  | none => notepad
  | some _ =>
      { entities := delObsFromFirst d.entityName d.observations notepad.entities }

/-- Pure core of `deleteObservations`: the `forEach` loop over the
requests. -/
def deleteObservations (deletions : List DeleteRequest) (notepad : Notepad) :
    Notepad :=
  deletions.foldl delObsStep notepad

/-- Model of `pattern.isPrefixOf(l)` on character lists. -/
def isPfx : List Char → List Char → Bool
  | [], _ => true
  | _ :: _, [] => false
  | a :: pa, b :: lb => a == b && isPfx pa lb

/-- Model of `String.prototype.includes`: does `pat` occur contiguously
inside `l`? -/
def containsSub (l pat : List Char) : Bool :=
  isPfx pat l ||
    match l with
    | [] => false
    | _ :: t => containsSub t pat

/-- Model of `s.toLowerCase()` as a character list (ASCII case folding,
`Char.toLower` per character). -/
def lowerChars (s : String) : List Char :=
  s.data.map Char.toLower

/-- The filter predicate of `searchNodes`: the lowercased query occurs in
the lowercased name, type, or one of the lowercased observations. -/
def entityMatches (query : String) (e : Entity) : Bool :=
  containsSub (lowerChars e.name) (lowerChars query) ||
  containsSub (lowerChars e.entityType) (lowerChars query) ||
  e.observations.any (fun o => containsSub (lowerChars o) (lowerChars query))

/-- Pure core of `searchNodes`. -/
def searchNodes (query : String) (graph : Notepad) : Notepad :=
  { entities := graph.entities.filter (entityMatches query) }

/-- Pure core of `openNodes`. -/
def openNodes (names : List String) (graph : Notepad) : Notepad :=
  { entities := graph.entities.filter (fun e => names.contains e.name) }

section RunLevel

/-- Full `createEntities` method: load, mutate, save, return the added
entities.  A load failure propagates before `fs.writeFile` is reached,
leaving the resource untouched. -/
def runCreateEntities (entities : List Entity) (r : Resource) :
    Resource × Except String (List Entity) :=
  match loadNotepad r with
  | Except.error m => (r, Except.error m)
  | Except.ok notepad =>
      let p := createEntities entities notepad
      (Resource.content (saveNotepad p.1), Except.ok p.2)

/-- Full `addObservations` method: load, process all requests, and only
then save; a throw from the processing loop propagates before
`fs.writeFile` is reached, leaving the resource untouched. -/
def runAddObservations (requests : List AddRequest) (r : Resource) :
    Resource × Except String (List AddResult) :=
  match loadNotepad r with
  | Except.error m => (r, Except.error m)
  | Except.ok graph =>
      match addObservations requests graph with
      | Except.error m => (r, Except.error m)
      | Except.ok p => (Resource.content (saveNotepad p.1), Except.ok p.2)

/-- Full `deleteEntities` method. -/
def runDeleteEntities (entityNames : List String) (r : Resource) :
    Resource × Except String Unit :=
  match loadNotepad r with
  | Except.error m => (r, Except.error m)
  | Except.ok graph =>
      (Resource.content (saveNotepad (deleteEntities entityNames graph)), Except.ok ())

/-- Full `deleteObservations` method. -/
def runDeleteObservations (deletions : List DeleteRequest) (r : Resource) :
    Resource × Except String Unit :=
  match loadNotepad r with
  | Except.error m => (r, Except.error m)
  | Except.ok graph =>
      (Resource.content (saveNotepad (deleteObservations deletions graph)), Except.ok ())

/-- Full `readNotepad` method: load only, no save. -/
def runReadNotepad (r : Resource) : Resource × Except String Notepad :=
  (r, loadNotepad r)

/-- Full `searchNodes` method: load, filter, no save. -/
def runSearchNodes (query : String) (r : Resource) :
    Resource × Except String Notepad :=
  match loadNotepad r with
  | Except.error m => (r, Except.error m)
  | Except.ok graph => (r, Except.ok (searchNodes query graph))

/-- Full `openNodes` method: load, filter, no save. -/
def runOpenNodes (names : List String) (r : Resource) :
    Resource × Except String Notepad :=
  match loadNotepad r with
  | Except.error m => (r, Except.error m)
  | Except.ok graph => (r, Except.ok (openNodes names graph))

end RunLevel

/-- The collection invariant of the spec: no two stored notes share a
name. -/
def NoDupNames (notepad : Notepad) : Prop :=
  notepad.entities.Pairwise (fun a b => a.name ≠ b.name)

/-- The same pairwise-distinct-names condition on a plain entity list. -/
def DistinctNames (es : List Entity) : Prop :=
  es.Pairwise (fun a b => a.name ≠ b.name)

instance (notepad : Notepad) : Decidable (NoDupNames notepad) := by
  unfold NoDupNames; infer_instance

instance (es : List Entity) : Decidable (DistinctNames es) := by
  unfold DistinctNames; infer_instance

/-- Contiguous occurrence of `pat` inside `l`, the specification-side
meaning of "appears as a substring". -/
def OccursIn (pat l : List Char) : Prop :=
  ∃ u v, u ++ pat ++ v = l

/-- A small concrete entity used in concrete instantiations. -/
def entA : Entity := { name := "a", entityType := "t", observations := [] }

/-- A second concrete entity with a different name. -/
def entB : Entity := { name := "b", entityType := "u", observations := ["o1"] }

/-- The search example of the spec. -/
def serverNote : Entity :=
  { name := "Server", entityType := "infra", observations := ["runs on PORT 8080"] }

/-- The observation-dedup example of the spec. -/
def sampleNote : Entity :=
  { name := "sample", entityType := "t", observations := ["a", "b"] }

/-! ### Helper lemmas -/

theorem noDupNames_iff (notepad : Notepad) :
    NoDupNames notepad ↔ (notepad.entities.map Entity.name).Nodup := by
  unfold NoDupNames
  exact List.pairwise_map.symm

theorem distinctNames_iff (es : List Entity) :
    DistinctNames es ↔ (es.map Entity.name).Nodup := by
  unfold DistinctNames
  exact List.pairwise_map.symm

theorem addObsToFirst_map_name (n : String) (obs : List String) (es : List Entity) :
    (addObsToFirst n obs es).map Entity.name = es.map Entity.name := by
  induction es with
  | nil => rfl
  | cons e rest ih =>
      by_cases h : e.name == n
      · simp [addObsToFirst, h]
      · simp [addObsToFirst, h, ih]

theorem delObsFromFirst_map_name (n : String) (obs : List String) (es : List Entity) :
    (delObsFromFirst n obs es).map Entity.name = es.map Entity.name := by
  induction es with
  | nil => rfl
  | cons e rest ih =>
      by_cases h : e.name == n
      · simp [delObsFromFirst, h]
      · simp [delObsFromFirst, h, ih]

theorem addObservations_map_name (requests : List AddRequest) (notepad notepad' : Notepad)
    (results : List AddResult)
    (h : addObservations requests notepad = Except.ok (notepad', results)) :
    notepad'.entities.map Entity.name = notepad.entities.map Entity.name := by
  induction requests generalizing notepad results with
  | nil =>
      simp only [addObservations] at h
      cases h
      rfl
  | cons o rest ih =>
      simp only [addObservations] at h
      cases hfind : notepad.entities.find? (fun e => e.name == o.entityName) with
      | none => rw [hfind] at h; cases h
      | some entity =>
          rw [hfind] at h
          simp only [Except.map] at h
          cases hrec : addObservations rest
              { entities := addObsToFirst o.entityName
                  (o.contents.filter (fun c => ¬ entity.observations.contains c))
                  notepad.entities } with
          | error m => rw [hrec] at h; cases h
          | ok p =>
              rw [hrec] at h
              cases h
              have := ih _ _ hrec
              rw [this]
              exact addObsToFirst_map_name _ _ _

theorem delObsStep_map_name (notepad : Notepad) (d : DeleteRequest) :
    (delObsStep notepad d).entities.map Entity.name =
      notepad.entities.map Entity.name := by
  unfold delObsStep
  cases notepad.entities.find? (fun e => e.name == d.entityName) with
  | none => rfl
  | some e => exact delObsFromFirst_map_name _ _ _

theorem deleteObservations_map_name (deletions : List DeleteRequest) (notepad : Notepad) :
    (deleteObservations deletions notepad).entities.map Entity.name =
      notepad.entities.map Entity.name := by
  induction deletions generalizing notepad with
  | nil => rfl
  | cons d rest ih =>
      unfold deleteObservations at ih ⊢
      rw [List.foldl_cons, ih]
      exact delObsStep_map_name _ _

theorem isPfx_iff (pat l : List Char) :
    isPfx pat l = true ↔ ∃ v, pat ++ v = l := by
  induction pat generalizing l with
  | nil => simp [isPfx]
  | cons a pa ih =>
      cases l with
      | nil =>
          simp only [isPfx]
          constructor
          · intro h; cases h
          · rintro ⟨v, hv⟩; cases hv
      | cons b lb =>
          simp only [isPfx, Bool.and_eq_true, beq_iff_eq, ih]
          constructor
          · rintro ⟨rfl, v, rfl⟩
            exact ⟨v, rfl⟩
          · rintro ⟨v, hv⟩
            injection hv with h1 h2
            exact ⟨h1, v, h2⟩

theorem containsSub_iff (l pat : List Char) :
    containsSub l pat = true ↔ OccursIn pat l := by
  induction l with
  | nil =>
      simp only [containsSub, Bool.or_false, isPfx_iff, OccursIn]
      constructor
      · rintro ⟨v, hv⟩
        exact ⟨[], v, hv⟩
      · rintro ⟨u, v, huv⟩
        rw [List.append_eq_nil] at huv
        obtain ⟨h1, h2⟩ := huv
        rw [List.append_eq_nil] at h1
        exact ⟨v, by simp [h1.1, h1.2, h2]⟩
  | cons b t ih =>
      simp only [containsSub, Bool.or_eq_true, isPfx_iff, ih, OccursIn]
      constructor
      · rintro (⟨v, hv⟩ | ⟨u, v, huv⟩)
        · exact ⟨[], v, hv⟩
        · exact ⟨b :: u, v, by rw [← huv]; rfl⟩
      · rintro ⟨u, v, huv⟩
        cases u with
        | nil =>
            exact Or.inl ⟨v, by simpa using huv⟩
        | cons x xu =>
            injection huv with h1 h2
            exact Or.inr ⟨xu, v, h2⟩

theorem find?_eq_none_iff (es : List Entity) (n : String) :
    es.find? (fun e => e.name == n) = none ↔ ∀ e ∈ es, e.name ≠ n := by
  rw [List.find?_eq_none]
  constructor
  · intro h e he
    have := h e he
    simpa using this
  · intro h e he
    simpa using h e he

theorem lookup_type_serialize (e : Entity) :
    lookupField "type" (serializeEntity e) = some (JValue.str "entity") := rfl

theorem parseEntity_serializeEntity (e : Entity) :
    parseEntity (serializeEntity e) = e := rfl

theorem parseLines_save (es : List Entity) :
    parseLines (es.map (fun e => Line.record (serializeEntity e))) = Except.ok es := by
  induction es with
  | nil => rfl
  | cons e rest ih =>
      simp [parseLines, lookup_type_serialize, parseEntity_serializeEntity, ih, Except.map]

theorem except_map_error_iff {α β : Type} (x : Except String α) (f : α → β) :
    (∃ m, x.map f = Except.error m) ↔ (∃ m, x = Except.error m) := by
  cases x <;> simp [Except.map]

theorem parseLines_error_iff (lines : List Line) :
    (∃ m, parseLines lines = Except.error m) ↔ Line.malformed ∈ lines := by
  induction lines with
  | nil => simp [parseLines]
  | cons l rest ih =>
      cases l with
      | blank => simpa [parseLines] using ih
      | malformed => simp [parseLines]
      | record obj =>
          by_cases h : lookupField "type" obj = some (JValue.str "entity")
          · simp only [parseLines, if_pos h]
            rw [except_map_error_iff]
            simpa using ih
          · simp only [parseLines, if_neg h]
            simpa using ih

theorem containsSub_nil_pat (l : List Char) : containsSub l [] = true := by
  cases l <;> rfl

theorem lowerChars_empty : lowerChars "" = [] := rfl

/-! ### Claim theorems -/

/-- Claim C4, counterexample: the record written for a concrete note
carries the tag `"entity"` (not `"note"`) in its `type` field, and has an
`"entityType"` field but no `"noteType"` field. -/
theorem save_record_tag_cex :
    lookupField "type" (serializeEntity entA) = some (JValue.str "entity") ∧
    lookupField "type" (serializeEntity entA) ≠ some (JValue.str "note") ∧
    lookupField "noteType" (serializeEntity entA) = none ∧
    lookupField "entityType" (serializeEntity entA) = some (JValue.str "t") := by
  decide

/-- Claim C4, amended: `saveNotepad` serializes every note as one
record line, a self-describing tagged object whose `type` field holds
`"entity"` and whose `name`, `entityType` and `observations` fields hold
the note's data; `parseLines` ignores any record line whose tag field is
not the entity tag instead of treating it as an error. -/
theorem save_format_spec :
    (∀ np : Notepad,
        saveNotepad np = np.entities.map (fun e => Line.record (serializeEntity e))) ∧
    (∀ e : Entity,
        lookupField "type" (serializeEntity e) = some (JValue.str "entity") ∧
        lookupField "name" (serializeEntity e) = some (JValue.str e.name) ∧
        lookupField "entityType" (serializeEntity e) = some (JValue.str e.entityType) ∧
        lookupField "observations" (serializeEntity e) = some (JValue.arr e.observations)) ∧
    (∀ obj lines, lookupField "type" obj ≠ some (JValue.str "entity") →
        parseLines (Line.record obj :: lines) = parseLines lines) := by
  refine ⟨fun np => rfl, fun e => ⟨rfl, rfl, rfl, rfl⟩, fun obj lines h => ?_⟩
  simp [parseLines, if_neg h]

/-- Claim C4, witness: a record tagged `"future"` is skipped by the
loader. -/
theorem save_format_spec_witness :
    lookupField "type" [("type", JValue.str "future")] ≠ some (JValue.str "entity") ∧
    parseLines [Line.record [("type", JValue.str "future")],
                Line.record (serializeEntity entA)] =
      parseLines [Line.record (serializeEntity entA)] :=
  ⟨by decide, save_format_spec.2.2 _ _ (by decide)⟩

/-- Claim C6: loading fails exactly when the resource exists but cannot
be read or contains a malformed non-blank line; a missing resource
yields the empty collection and blank lines are skipped. -/
theorem load_error_characterization :
    (∀ r : Resource,
        (∃ m, loadNotepad r = Except.error m) ↔
          (r = Resource.unreadable ∨
            ∃ lines, r = Resource.content lines ∧ Line.malformed ∈ lines)) ∧
    loadNotepad Resource.missing = Except.ok { entities := [] } ∧
    (∀ lines, parseLines (Line.blank :: lines) = parseLines lines) := by
  refine ⟨?_, rfl, fun lines => rfl⟩
  intro r
  cases r with
  | missing => simp [loadNotepad]
  | unreadable => simp [loadNotepad]
  | content lines =>
      simp only [loadNotepad]
      rw [except_map_error_iff]
      simp [parseLines_error_iff]

/-- Claim C6, witness: a malformed line aborts the load, an unreadable
resource propagates its error. -/
theorem load_error_characterization_witness :
    (∃ m, loadNotepad (Resource.content [Line.malformed]) = Except.error m) ∧
    (∃ m, loadNotepad Resource.unreadable = Except.error m) :=
  ⟨(load_error_characterization.1 _).mpr (Or.inr ⟨[Line.malformed], rfl, by simp⟩),
   (load_error_characterization.1 _).mpr (Or.inl rfl)⟩

/-- Claim C7: saving a non-empty collection produces a resource that
loads back into that exact collection. -/
theorem save_load_roundtrip (np : Notepad) (_h : np.entities ≠ []) :
    loadNotepad (Resource.content (saveNotepad np)) = Except.ok np := by
  simp [loadNotepad, saveNotepad, parseLines_save, Except.map]

/-- Claim C7, witness: round-trip at a concrete two-note collection. -/
theorem save_load_roundtrip_witness :
    ({ entities := [entA, serverNote] } : Notepad).entities ≠ [] ∧
    loadNotepad (Resource.content (saveNotepad { entities := [entA, serverNote] })) =
      Except.ok { entities := [entA, serverNote] } :=
  ⟨by decide, save_load_roundtrip _ (by decide)⟩

/-- Claim C10: searching with the empty query returns the loaded
collection unchanged and leaves the resource untouched. -/
theorem search_empty_query :
    (∀ graph : Notepad, searchNodes "" graph = graph) ∧
    (∀ r : Resource, runSearchNodes "" r = (r, loadNotepad r)) := by
  have hmatch : ∀ e : Entity, entityMatches "" e = true := by
    intro e
    simp [entityMatches, lowerChars_empty, containsSub_nil_pat]
  have h1 : ∀ graph : Notepad, searchNodes "" graph = graph := by
    intro graph
    unfold searchNodes
    rw [List.filter_eq_self.mpr (fun a _ => hmatch a)]
  refine ⟨h1, fun r => ?_⟩
  cases hl : loadNotepad r with
  | error m => simp [runSearchNodes, hl]
  | ok g => simp [runSearchNodes, hl, h1]

theorem find?_append_first (pre post : List Entity) (e : Entity) (n : String)
    (hpre : ∀ x ∈ pre, x.name ≠ n) (he : e.name = n) :
    (pre ++ e :: post).find? (fun x => x.name == n) = some e := by
  induction pre with
  | nil =>
      simp only [List.nil_append]
      exact List.find?_cons_of_pos _ (by simp [he])
  | cons x xs ih =>
      rw [List.cons_append, List.find?_cons_of_neg _ (by simpa using hpre x (by simp))]
      exact ih (fun y hy => hpre y (by simp [hy]))

theorem addObsToFirst_append (pre post : List Entity) (e : Entity) (n : String)
    (obs : List String)
    (hpre : ∀ x ∈ pre, x.name ≠ n) (he : e.name = n) :
    addObsToFirst n obs (pre ++ e :: post) =
      pre ++ { e with observations := e.observations ++ obs } :: post := by
  induction pre with
  | nil => simp [addObsToFirst, he]
  | cons x xs ih =>
      have hx : ¬ ((x.name == n) = true) := by simpa using hpre x (by simp)
      simp only [List.cons_append, addObsToFirst, if_neg hx, List.cons.injEq, true_and]
      exact ih (fun y hy => hpre y (by simp [hy]))

theorem delObsFromFirst_append (pre post : List Entity) (e : Entity) (n : String)
    (obs : List String)
    (hpre : ∀ x ∈ pre, x.name ≠ n) (he : e.name = n) :
    delObsFromFirst n obs (pre ++ e :: post) =
      pre ++ { e with observations :=
        e.observations.filter (fun o => ¬ obs.contains o) } :: post := by
  induction pre with
  | nil => simp [delObsFromFirst, he]
  | cons x xs ih =>
      have hx : ¬ ((x.name == n) = true) := by simpa using hpre x (by simp)
      simp only [List.cons_append, delObsFromFirst, if_neg hx, List.cons.injEq, true_and]
      exact ih (fun y hy => hpre y (by simp [hy]))

/-- Claim C9: search returns exactly the notes for which the query
occurs case-insensitively as a substring of the name, the type, or one
of the observations; the resource is left untouched (no save). -/
theorem searchNodes_spec :
    (∀ (query : String) (r : Resource) (graph : Notepad),
        loadNotepad r = Except.ok graph →
        runSearchNodes query r = (r, Except.ok (searchNodes query graph))) ∧
    (∀ (query : String) (graph : Notepad) (e : Entity),
        e ∈ (searchNodes query graph).entities ↔
          e ∈ graph.entities ∧
            (OccursIn (lowerChars query) (lowerChars e.name) ∨
             OccursIn (lowerChars query) (lowerChars e.entityType) ∨
             ∃ o ∈ e.observations, OccursIn (lowerChars query) (lowerChars o))) := by
  constructor
  · intro query r graph h
    simp [runSearchNodes, h]
  · intro query graph e
    simp [searchNodes, List.mem_filter, entityMatches, Bool.or_eq_true,
          containsSub_iff, List.any_eq_true, or_assoc]

/-- Claim C9, witness: the spec's example note is found by both
`search("port")` and `search("SERVER")`, and the resource is untouched. -/
theorem searchNodes_spec_witness :
    runSearchNodes "port" (Resource.content (saveNotepad { entities := [serverNote] })) =
      (Resource.content (saveNotepad { entities := [serverNote] }),
        Except.ok (searchNodes "port" { entities := [serverNote] })) ∧
    serverNote ∈ (searchNodes "port" { entities := [serverNote] }).entities ∧
    serverNote ∈ (searchNodes "SERVER" { entities := [serverNote] }).entities :=
  ⟨searchNodes_spec.1 "port" _ _ rfl,
   (searchNodes_spec.2 "port" _ serverNote).mpr
     ⟨by decide,
      Or.inr (Or.inr ⟨"runs on PORT 8080", by decide,
        "runs on ".data, " 8080".data, by decide⟩)⟩,
   (searchNodes_spec.2 "SERVER" _ serverNote).mpr
     ⟨by decide, Or.inl ⟨[], [], by decide⟩⟩⟩

/-- Claim C8: deleteEntities and deleteObservations never raise a
not-found error: given a successful load they always save once, absent
names act as no-ops, and for an existing note every observation matching
the request list is removed. -/
theorem delete_ops_lenient :
    (∀ (entityNames : List String) (r : Resource) (graph : Notepad),
        loadNotepad r = Except.ok graph →
        runDeleteEntities entityNames r =
          (Resource.content (saveNotepad (deleteEntities entityNames graph)),
            Except.ok ())) ∧
    (∀ (entityNames : List String) (graph : Notepad) (e : Entity),
        e ∈ (deleteEntities entityNames graph).entities ↔
          e ∈ graph.entities ∧ ¬ e.name ∈ entityNames) ∧
    (∀ (deletions : List DeleteRequest) (r : Resource) (graph : Notepad),
        loadNotepad r = Except.ok graph →
        runDeleteObservations deletions r =
          (Resource.content (saveNotepad (deleteObservations deletions graph)),
            Except.ok ())) ∧
    (∀ (graph : Notepad) (d : DeleteRequest),
        (∀ e ∈ graph.entities, e.name ≠ d.entityName) → delObsStep graph d = graph) ∧
    (∀ (pre post : List Entity) (e : Entity) (d : DeleteRequest),
        e.name = d.entityName → (∀ x ∈ pre, x.name ≠ d.entityName) →
        delObsStep { entities := pre ++ e :: post } d =
          { entities := pre ++
              { e with observations :=
                  e.observations.filter (fun o => ¬ d.observations.contains o) } :: post }) ∧
    (∀ (obs del : List String) (o : String),
        o ∈ obs.filter (fun x => ¬ del.contains x) ↔ o ∈ obs ∧ ¬ o ∈ del) := by
  refine ⟨?_, ?_, ?_, ?_, ?_, ?_⟩
  · intro entityNames r graph h
    simp [runDeleteEntities, h]
  · intro entityNames graph e
    simp [deleteEntities, List.mem_filter]
  · intro deletions r graph h
    simp [runDeleteObservations, h]
  · intro graph d h
    unfold delObsStep
    rw [(find?_eq_none_iff _ _).mpr h]
  · intro pre post e d he hpre
    have hf := find?_append_first pre post e d.entityName hpre he
    have hd := delObsFromFirst_append pre post e d.entityName d.observations hpre he
    simp [delObsStep, hf, hd]
  · intro obs del o
    simp [List.mem_filter]

/-- Claim C8, witness: deleting a missing name and deleting observations
of a missing note are no-ops, while an existing note has its listed
observations removed; both operations save. -/
theorem delete_ops_lenient_witness :
    runDeleteEntities ["missing-name"] (Resource.content (saveNotepad { entities := [entA, entB] })) =
      (Resource.content (saveNotepad (deleteEntities ["missing-name"] { entities := [entA, entB] })),
        Except.ok ()) ∧
    (entA ∈ (deleteEntities ["missing-name"] { entities := [entA, entB] }).entities ∧
      ¬ entA.name ∈ ["missing-name"]) ∧
    runDeleteObservations [{ entityName := "zz", observations := ["x"] }]
        (Resource.content (saveNotepad { entities := [entA, entB] })) =
      (Resource.content (saveNotepad (deleteObservations
          [{ entityName := "zz", observations := ["x"] }] { entities := [entA, entB] })),
        Except.ok ()) ∧
    delObsStep { entities := [entA, entB] } { entityName := "zz", observations := ["x"] } =
      { entities := [entA, entB] } ∧
    delObsStep { entities := [entB] } { entityName := "b", observations := ["o1"] } =
      { entities := [{ name := "b", entityType := "u", observations := [] }] } :=
  ⟨delete_ops_lenient.1 ["missing-name"] _ _ rfl,
   ⟨(delete_ops_lenient.2.1 ["missing-name"] { entities := [entA, entB] } entA).mpr
     ⟨by decide, by decide⟩, by decide⟩,
   delete_ops_lenient.2.2.1 [{ entityName := "zz", observations := ["x"] }] _ _ rfl,
   delete_ops_lenient.2.2.2.1 { entities := [entA, entB] }
     { entityName := "zz", observations := ["x"] } (by decide),
   delete_ops_lenient.2.2.2.2.1 [] [] entB
     { entityName := "b", observations := ["o1"] } (by decide) (by decide)⟩

/-- Claim C5, counterexample: a candidate list containing the same fresh
note twice is returned in full and stored twice — the stored collection
does not contain exactly one copy of each note. -/
theorem createEntities_twice_cex :
    (createEntities [entA, entA] { entities := [] }).2 = [entA, entA] ∧
    (createEntities [entA, entA] (createEntities [entA, entA] { entities := [] }).1).2 = [] ∧
    (createEntities [entA, entA] { entities := [] }).1.entities.count entA = 2 := by
  decide

/-- Claim C5, amended: createEntities adds exactly the candidates whose
name is not already stored and returns exactly the added notes; when the
candidates have pairwise-distinct names none of which is already stored,
calling it twice with the same list returns the full list first, the
empty list second, and stores exactly one copy of each. -/
theorem createEntities_spec :
    (∀ (es : List Entity) (r : Resource) (np : Notepad),
        loadNotepad r = Except.ok np →
        runCreateEntities es r =
          (Resource.content (saveNotepad (createEntities es np).1),
            Except.ok (createEntities es np).2)) ∧
    (∀ (es : List Entity) (np : Notepad),
        (createEntities es np).1.entities = np.entities ++ (createEntities es np).2) ∧
    (∀ (es : List Entity) (np : Notepad) (e : Entity),
        e ∈ (createEntities es np).2 ↔ e ∈ es ∧ ∀ x ∈ np.entities, x.name ≠ e.name) ∧
    (∀ (es : List Entity) (np : Notepad),
        DistinctNames es → (∀ e ∈ es, ∀ x ∈ np.entities, x.name ≠ e.name) →
        (createEntities es np).2 = es ∧
        (createEntities es np).1.entities = np.entities ++ es ∧
        (createEntities es (createEntities es np).1).2 = [] ∧
        ∀ e ∈ es, (createEntities es np).1.entities.count e = 1) := by
  have hmem : ∀ (es : List Entity) (np : Notepad) (e : Entity),
      e ∈ (createEntities es np).2 ↔ e ∈ es ∧ ∀ x ∈ np.entities, x.name ≠ e.name := by
    intro es np e
    simp [createEntities, List.mem_filter, List.any_eq_true]
  refine ⟨?_, fun es np => rfl, hmem, ?_⟩
  · intro es r np h
    simp [runCreateEntities, h]
  · intro es np hdist hfresh
    have h2 : (createEntities es np).2 = es := by
      refine List.filter_eq_self.mpr ?_
      intro a ha
      simp only [List.any_eq_true, decide_not, Bool.not_eq_true', decide_eq_false_iff_not,
        not_exists, not_and, beq_iff_eq, decide_eq_true_eq]
      intro x hx
      exact hfresh a ha x hx
    have h1 : (createEntities es np).1.entities = np.entities ++ es := by
      rw [show (createEntities es np).1.entities = np.entities ++ (createEntities es np).2
        from rfl, h2]
    refine ⟨h2, h1, ?_, ?_⟩
    · refine List.filter_eq_nil_iff.mpr ?_
      intro a ha
      simp only [List.any_eq_true, decide_not, Bool.not_eq_true', decide_eq_false_iff_not,
        not_not, beq_iff_eq, decide_eq_true_eq]
      refine ⟨a, ?_, rfl⟩
      rw [h1]
      exact List.mem_append_right _ ha
    · intro e he
      rw [h1, List.count_append]
      have hnot : e ∉ np.entities := by
        intro hx
        exact hfresh e he e hx rfl
      rw [List.count_eq_zero.mpr hnot, Nat.zero_add]
      have hnd : es.Nodup := hdist.imp (fun hR heq => hR (congrArg Entity.name heq))
      exact List.count_eq_one_of_mem hnd he

/-- Claim C5, witness: two distinct fresh notes are stored once each;
the second identical call adds nothing. -/
theorem createEntities_spec_witness :
    runCreateEntities [entA] Resource.missing =
      (Resource.content (saveNotepad (createEntities [entA] { entities := [] }).1),
        Except.ok (createEntities [entA] { entities := [] }).2) ∧
    (createEntities [entA, entB] { entities := [] }).2 = [entA, entB] ∧
    (createEntities [entA, entB] { entities := [] }).1.entities = [entA, entB] ∧
    (createEntities [entA, entB] (createEntities [entA, entB] { entities := [] }).1).2 = [] ∧
    (createEntities [entA, entB] { entities := [] }).1.entities.count entA = 1 :=
  ⟨createEntities_spec.1 [entA] Resource.missing _ rfl,
   (createEntities_spec.2.2.2 [entA, entB] { entities := [] } (by decide)
      (by decide)).1,
   (createEntities_spec.2.2.2 [entA, entB] { entities := [] } (by decide)
      (by decide)).2.1,
   (createEntities_spec.2.2.2 [entA, entB] { entities := [] } (by decide)
      (by decide)).2.2.1,
   (createEntities_spec.2.2.2 [entA, entB] { entities := [] } (by decide)
      (by decide)).2.2.2 entA (by decide)⟩

/-- Claim C3, counterexample: a request whose contents repeat a fresh
string adds it twice — the note's duplicate-free observation list does
not stay duplicate-free. -/
theorem addObservations_dup_contents_cex :
    addObservations [{ entityName := "a", contents := ["c", "c"] }]
        { entities := [{ name := "a", entityType := "t", observations := ["x"] }] } =
      Except.ok
        ({ entities := [{ name := "a", entityType := "t", observations := ["x", "c", "c"] }] },
         [{ entityName := "a", addedObservations := ["c", "c"] }]) ∧
    (["x"] : List String).Nodup ∧
    ¬ (["x", "c", "c"] : List String).Nodup :=
  ⟨rfl, by decide, by decide⟩

/-- Claim C3, amended: for a request on an existing note, the contents
already present are dropped, the remainder is appended in order, and the
returned addedObservations are exactly the newly appended strings; a
duplicate-free observation list stays duplicate-free provided the
request's contents are themselves duplicate-free. -/
theorem addObservations_request_spec :
    ∀ (pre post : List Entity) (e : Entity) (n : String) (cs : List String),
      e.name = n → (∀ x ∈ pre, x.name ≠ n) →
      (addObservations [{ entityName := n, contents := cs }]
          { entities := pre ++ e :: post } =
        Except.ok
          ({ entities := pre ++
              { e with observations := e.observations ++
                  cs.filter (fun c => ¬ e.observations.contains c) } :: post },
           [{ entityName := n,
              addedObservations := cs.filter (fun c => ¬ e.observations.contains c) }])) ∧
      (∀ c, c ∈ cs.filter (fun c => ¬ e.observations.contains c) ↔
          c ∈ cs ∧ ¬ c ∈ e.observations) ∧
      (e.observations.Nodup → cs.Nodup →
        (e.observations ++ cs.filter (fun c => ¬ e.observations.contains c)).Nodup) := by
  intro pre post e n cs he hpre
  have hf := find?_append_first pre post e n hpre he
  refine ⟨?_, ?_, ?_⟩
  · simp only [addObservations, hf]
    rw [addObsToFirst_append pre post e n _ hpre he]
    rfl
  · intro c
    simp [List.mem_filter]
  · intro h1 h2
    refine List.Nodup.append h1 (h2.filter _) ?_
    intro a ha hb
    rw [List.mem_filter] at hb
    have hb2 := hb.2
    simp at hb2
    exact hb2 ha

/-- Claim C3, witness: the spec's example — observations `["a","b"]`
plus contents `["b","c"]` yields addedObservations `["c"]` and final
observations `["a","b","c"]`, which are duplicate-free. -/
theorem addObservations_request_spec_witness :
    addObservations [{ entityName := "sample", contents := ["b", "c"] }]
        { entities := [sampleNote] } =
      Except.ok
        ({ entities := [{ name := "sample", entityType := "t", observations := ["a", "b", "c"] }] },
         [{ entityName := "sample", addedObservations := ["c"] }]) ∧
    ((["a", "b"] : List String) ++
        ["b", "c"].filter (fun c => ¬ (["a", "b"] : List String).contains c)).Nodup :=
  ⟨(addObservations_request_spec [] [] sampleNote "sample" ["b", "c"] rfl (by decide)).1,
   (addObservations_request_spec [] [] sampleNote "sample" ["b", "c"] rfl (by decide)).2.2
     (by decide) (by decide)⟩

theorem addObservations_missing_error (requests : List AddRequest) (np : Notepad)
    (h : ∃ o ∈ requests, ∀ e ∈ np.entities, e.name ≠ o.entityName) :
    ∃ m, addObservations requests np = Except.error m := by
  induction requests generalizing np with
  | nil => simp at h
  | cons o rest ih =>
      cases hfind : np.entities.find? (fun e => e.name == o.entityName) with
      | none =>
          exact ⟨"Entity with name " ++ o.entityName ++ " not found",
            by simp [addObservations, hfind]⟩
      | some entity =>
          obtain ⟨o', ho', hmiss⟩ := h
          rcases List.mem_cons.mp ho' with rfl | ho'rest
          · have hmem := List.mem_of_find?_eq_some hfind
            have hname : entity.name = o'.entityName := by
              have := List.find?_some hfind
              simpa using this
            exact absurd hname (hmiss entity hmem)
          · have hnames : ∀ e' ∈ addObsToFirst o.entityName
                (o.contents.filter (fun c => ¬ entity.observations.contains c))
                np.entities, e'.name ≠ o'.entityName := by
              intro e' he'
              have hmap : e'.name ∈ np.entities.map Entity.name := by
                rw [← addObsToFirst_map_name o.entityName
                  (o.contents.filter (fun c => ¬ entity.observations.contains c))
                  np.entities]
                exact List.mem_map_of_mem _ he'
              obtain ⟨x, hx, hxe⟩ := List.mem_map.mp hmap
              rw [← hxe]
              exact hmiss x hx
            obtain ⟨m, hm⟩ := ih ⟨addObsToFirst o.entityName
                (o.contents.filter (fun c => ¬ entity.observations.contains c))
                np.entities⟩ ⟨o', ho'rest, hnames⟩
            exact ⟨m, by simp only [addObservations, hfind]; rw [hm]; rfl⟩

theorem addObservations_all_present_ok (requests : List AddRequest) (np : Notepad)
    (h : ∀ o ∈ requests, ∃ e ∈ np.entities, e.name = o.entityName) :
    ∃ np' res, addObservations requests np = Except.ok (np', res) := by
  induction requests generalizing np with
  | nil => exact ⟨np, [], rfl⟩
  | cons o rest ih =>
      cases hfind : np.entities.find? (fun e => e.name == o.entityName) with
      | none =>
          obtain ⟨e, he, hname⟩ := h o (by simp)
          exact absurd hname ((find?_eq_none_iff np.entities o.entityName).mp hfind e he)
      | some entity =>
          have hrest : ∀ o' ∈ rest, ∃ e ∈ addObsToFirst o.entityName
              (o.contents.filter (fun c => ¬ entity.observations.contains c))
              np.entities, e.name = o'.entityName := by
            intro o' ho'
            obtain ⟨e, he, hname⟩ := h o' (by simp [ho'])
            have hmap : e.name ∈ (addObsToFirst o.entityName
                (o.contents.filter (fun c => ¬ entity.observations.contains c))
                np.entities).map Entity.name := by
              rw [addObsToFirst_map_name]
              exact List.mem_map_of_mem _ he
            obtain ⟨x, hx, hxe⟩ := List.mem_map.mp hmap
            exact ⟨x, hx, hxe.trans hname⟩
          obtain ⟨np', res, hok⟩ := ih ⟨addObsToFirst o.entityName
              (o.contents.filter (fun c => ¬ entity.observations.contains c))
              np.entities⟩ hrest
          exact ⟨_, _, by simp only [addObservations, hfind]; rw [hok]; rfl⟩

/-- Claim C2: addObservations is strict and atomic — if any request
names a note absent from the loaded collection the whole call errors and
the resource is untouched; if every request names an existing note the
batch succeeds and the mutated collection is saved once. -/
theorem addObservations_strict_atomic :
    ∀ (requests : List AddRequest) (r : Resource) (graph : Notepad),
      loadNotepad r = Except.ok graph →
      ((∃ o ∈ requests, ∀ e ∈ graph.entities, e.name ≠ o.entityName) →
        (runAddObservations requests r).1 = r ∧
          ∃ m, (runAddObservations requests r).2 = Except.error m) ∧
      ((∀ o ∈ requests, ∃ e ∈ graph.entities, e.name = o.entityName) →
        ∃ np' res, addObservations requests graph = Except.ok (np', res) ∧
          runAddObservations requests r =
            (Resource.content (saveNotepad np'), Except.ok res)) := by
  intro requests r graph h
  constructor
  · intro hmiss
    obtain ⟨m, hm⟩ := addObservations_missing_error requests graph hmiss
    exact ⟨by simp [runAddObservations, h, hm], m, by simp [runAddObservations, h, hm]⟩
  · intro hall
    obtain ⟨np', res, hok⟩ := addObservations_all_present_ok requests graph hall
    exact ⟨np', res, hok, by simp [runAddObservations, h, hok]⟩

/-- Claim C2, witness: a batch naming one existing and one missing note
fails with the resource untouched; a batch naming only the existing note
succeeds and saves. -/
theorem addObservations_strict_atomic_witness :
    ((runAddObservations
        [{ entityName := "a", contents := ["y"] },
         { entityName := "missing", contents := ["z"] }]
        (Resource.content (saveNotepad { entities := [entA] }))).1 =
          Resource.content (saveNotepad { entities := [entA] }) ∧
      ∃ m, (runAddObservations
        [{ entityName := "a", contents := ["y"] },
         { entityName := "missing", contents := ["z"] }]
        (Resource.content (saveNotepad { entities := [entA] }))).2 = Except.error m) ∧
    (∃ np' res,
      addObservations [{ entityName := "a", contents := ["y"] }] { entities := [entA] } =
        Except.ok (np', res) ∧
      runAddObservations [{ entityName := "a", contents := ["y"] }]
          (Resource.content (saveNotepad { entities := [entA] })) =
        (Resource.content (saveNotepad np'), Except.ok res)) :=
  ⟨(addObservations_strict_atomic
      [{ entityName := "a", contents := ["y"] }, { entityName := "missing", contents := ["z"] }]
      (Resource.content (saveNotepad { entities := [entA] }))
      { entities := [entA] } rfl).1 (by decide),
   (addObservations_strict_atomic [{ entityName := "a", contents := ["y"] }]
      (Resource.content (saveNotepad { entities := [entA] }))
      { entities := [entA] } rfl).2 (by decide)⟩

/-- Claim C1, counterexample: starting from the duplicate-free empty
collection, createEntities with two same-named fresh candidates stores
both copies, so the saved collection violates name uniqueness. -/
theorem uniqueness_invariant_cex :
    NoDupNames { entities := [] } ∧
    ¬ NoDupNames (createEntities [entA, entA] { entities := [] }).1 :=
  ⟨by decide, by decide⟩

/-- Claim C1, amended: name uniqueness is preserved by addObservations,
deleteEntities and deleteObservations unconditionally, and by
createEntities provided the candidate sequence itself contains no two
candidates with the same name. -/
theorem uniqueness_invariant_preserved :
    (∀ (es : List Entity) (np : Notepad),
        NoDupNames np → DistinctNames es → NoDupNames (createEntities es np).1) ∧
    (∀ (requests : List AddRequest) (np np' : Notepad) (res : List AddResult),
        NoDupNames np → addObservations requests np = Except.ok (np', res) →
        NoDupNames np') ∧
    (∀ (entityNames : List String) (np : Notepad),
        NoDupNames np → NoDupNames (deleteEntities entityNames np)) ∧
    (∀ (deletions : List DeleteRequest) (np : Notepad),
        NoDupNames np → NoDupNames (deleteObservations deletions np)) := by
  refine ⟨?_, ?_, ?_, ?_⟩
  · intro es np hnp hes
    have hform : (createEntities es np).1.entities =
        np.entities ++ es.filter
          (fun e => ¬ np.entities.any (fun x => x.name == e.name)) := rfl
    unfold NoDupNames at hnp ⊢
    unfold DistinctNames at hes
    rw [hform, List.pairwise_append]
    refine ⟨hnp, hes.sublist (List.filter_sublist _), ?_⟩
    intro a ha b hb
    rw [List.mem_filter] at hb
    have hb2 := hb.2
    simp only [List.any_eq_true, beq_iff_eq, decide_not, Bool.not_eq_true',
      decide_eq_false_iff_not, not_exists, not_and, decide_eq_true_eq] at hb2
    exact hb2 a ha
  · intro requests np np' res hnp hok
    rw [noDupNames_iff] at hnp ⊢
    rw [addObservations_map_name requests np np' res hok]
    exact hnp
  · intro entityNames np hnp
    unfold NoDupNames deleteEntities at *
    exact hnp.sublist (List.filter_sublist _)
  · intro deletions np hnp
    rw [noDupNames_iff] at hnp ⊢
    rw [deleteObservations_map_name]
    exact hnp

/-- Claim C1, witness: the invariant survives one concrete run of each
of the four mutating operations. -/
theorem uniqueness_invariant_preserved_witness :
    NoDupNames (createEntities [entB] { entities := [entA] }).1 ∧
    NoDupNames { entities := [{ name := "a", entityType := "t", observations := ["y"] }] } ∧
    NoDupNames (deleteEntities ["a"] { entities := [entA, entB] }) ∧
    NoDupNames (deleteObservations [{ entityName := "b", observations := ["o1"] }]
      { entities := [entA, entB] }) :=
  ⟨uniqueness_invariant_preserved.1 [entB] { entities := [entA] } (by decide) (by decide),
   uniqueness_invariant_preserved.2.1 [{ entityName := "a", contents := ["y"] }]
     { entities := [entA] } _ _ (by decide) rfl,
   uniqueness_invariant_preserved.2.2.1 ["a"] { entities := [entA, entB] } (by decide),
   uniqueness_invariant_preserved.2.2.2 [{ entityName := "b", observations := ["o1"] }]
     { entities := [entA, entB] } (by decide)⟩
